import Mathlib

/-!
Verification of the RiskGuard trade-audit client core against its source
(`src/frontend/src/app/page.tsx` — the `Home` page and the
`TradeEvaluationForm` component — and
`src/frontend/src/components/DecisionReport.tsx`).

The embedding models JavaScript numbers as either NaN or a rational
(`JSNum`), the form component's state and its wired `onChange` handlers
(`handleChange`, `formStep`), the page-level submit lifecycle
(`ClientState`, `step`), and the report component's classification
lookup and blockers section (`statusColors`, `statusIcon`,
`renderBlockers`).
-/

namespace RiskGuard

/-- A JavaScript number as the client manipulates it: either NaN or an
actual (rational) numeric value.  `Number(e.target.value)` yields such a
value, and every comparison against the 2.0 cap is performed on it. -/
inductive JSNum where
  | nan : JSNum
  | num : ℚ → JSNum
deriving DecidableEq

/-- JavaScript `>` on numbers: any comparison with NaN is false. -/
def JSNum.gt : JSNum → JSNum → Bool
  | .num a, .num b => decide (b < a)
  | _, _ => false

/-- JavaScript `<=` on numbers: any comparison with NaN is false. -/
def JSNum.le : JSNum → JSNum → Bool
  | .num a, .num b => decide (a ≤ b)
  | _, _ => false

/-- The hard-coded 2.0 risk cap from `handleChange`. -/
def jsTwo : JSNum := JSNum.num 2

/-- The outbound audit payload (`interface AuditRequest` in
`TradeEvaluationForm`). -/
structure AuditRequest where
  symbol : String
  strategy_type : String
  account_balance : JSNum
  risk_percentage : JSNum
deriving DecidableEq

/-- `traffic_light` of the verdict payload consumed by `DecisionReport`. -/
structure TrafficLight where
  color : String
  label : String
deriving DecidableEq

/-- `regime_card` of the verdict payload. -/
structure RegimeCard where
  title : String
  value : String
  subtext : String
deriving DecidableEq

/-- `risk_card` of the verdict payload. -/
structure RiskCard where
  title : String
  metric_1 : String
  metric_2 : String
deriving DecidableEq

/-- `ai_analysis` of the verdict payload; `blockers` is `none` when the
field is absent at runtime (the component guards with
`ai_analysis.blockers &&` before using it). -/
structure AiAnalysis where
  text : String
  blockers : Option (List String)
deriving DecidableEq

/-- `ui_components` of the verdict payload. -/
structure UiComponents where
  traffic_light : TrafficLight
  regime_card : RegimeCard
  risk_card : RiskCard
  ai_analysis : AiAnalysis
deriving DecidableEq

/-- The inbound verdict payload rendered by `DecisionReport`. -/
structure Verdict where
  asset : String
  timestamp : String
  ui_components : UiComponents
deriving DecidableEq

/-- The advisory message set by `handleChange` when the risk cap is
violated. -/
def riskAdvisory : String := "High risk limits (>2%) disabled in MVP for safety."

/-- The `alert` message emitted by `handleAudit` when the backend call
fails. -/
def connectFailAlert : String := "Failed to connect to the Risk Engine. Is the backend running?"

/-- The state held by `TradeEvaluationForm`: the draft request
(`formData`) and the advisory (`error`). -/
structure FormState where
  formData : AuditRequest
  error : Option String
deriving DecidableEq

/-- The events the form's four inputs can emit, carrying the value each
wired handler passes to `handleChange` (the two number inputs pass
`Number(e.target.value)`, the two selects pass the option string). -/
inductive FormEvent where
  | selectSymbol (v : String)
  | selectStrategy (v : String)
  | editBalance (n : JSNum)
  | editRisk (n : JSNum)
deriving DecidableEq

/-- `handleChange(field, value)` as invoked from the four inputs: the
`risk_percentage` branch checks `Number(value) > 2.0`, sets the advisory
and returns early on violation, and clears the advisory and stores the
value otherwise; every other field is stored unconditionally. -/
def handleChange (s : FormState) (e : FormEvent) : FormState :=
  match e with
  | .selectSymbol v => { s with formData := { s.formData with symbol := v } }
  | .selectStrategy v => { s with formData := { s.formData with strategy_type := v } }
  | .editBalance n => { s with formData := { s.formData with account_balance := n } }
  | .editRisk n =>
      if JSNum.gt n jsTwo then { s with error := some riskAdvisory }
      else { formData := { s.formData with risk_percentage := n }, error := none }

/-- The Asset Pair `<option>`s, paired with their `disabled` flag. -/
def symbolOptions : List (String × Bool) := [("BTC/USDT", false), ("ETH/USDT", false)]

/-- The Strategy Profile `<option>`s, paired with their `disabled` flag;
BREAKOUT ("Coming Soon") carries the `disabled` attribute. -/
def strategyOptions : List (String × Bool) :=
  [("TREND_FOLLOWING", false), ("BREAKOUT", true), ("MEAN_REVERSION", false)]

/-- A value can be chosen in a `<select>` exactly when it is one of its
options and that option is not disabled. -/
def selectable (opts : List (String × Bool)) (v : String) : Bool :=
  opts.any (fun p => p.1 == v && !p.2)

/-- One user interaction with the form: the selects fire `onChange` only
for a selectable option (DOM semantics of a `disabled` option), the
number inputs always fire. -/
def formStep (s : FormState) (e : FormEvent) : FormState :=
  match e with
  | .selectSymbol v => if selectable symbolOptions v then handleChange s e else s
  | .selectStrategy v => if selectable strategyOptions v then handleChange s e else s
  | .editBalance _ => handleChange s e
  | .editRisk _ => handleChange s e

/-- The `useState` initial value of `formData`, plus `error = null`. -/
def initFormData : AuditRequest :=
  { symbol := "BTC/USDT", strategy_type := "TREND_FOLLOWING",
    account_balance := JSNum.num 10000, risk_percentage := JSNum.num 1 }

/-- The form component's state right after mounting. -/
def initFormState : FormState := { formData := initFormData, error := none }

/-- The page-level state of `Home` together with the outstanding
asynchronous continuations of `handleAudit`.  `inflight` lists the
`axios.post` calls awaiting resolution (with the request each captured);
`delayed` lists the scheduled `setTimeout` callbacks, each holding the
request it answers and the response verdict it will store.  `alerts`
logs the `alert` calls, and `lastSubmitted` is a history variable
recording the argument of the most recent `onSubmit`. -/
structure ClientState where
  form : FormState
  report : Option Verdict
  loading : Bool
  inflight : List AuditRequest
  delayed : List (AuditRequest × Verdict)
  lastSubmitted : Option AuditRequest
  alerts : List String
deriving DecidableEq

/-- The `RUN AUDIT` button is clickable when the form is rendered
(`!report`) and not `disabled={isLoading || !!error}`. -/
def submitEnabled (s : ClientState) : Bool :=
  decide (s.report = none) && (!s.loading && s.form.error.isNone)

/-- The events the page can process: a form interaction (only while the
form is rendered), a click of the submit button, resolution or
rejection of the i-th outstanding `axios.post`, firing of the j-th
scheduled `setTimeout` callback, and a click of the `Back to Cockpit`
button (rendered only while a report is shown). -/
inductive Event where
  | form (fe : FormEvent)
  | submitClick
  | netOk (i : ℕ) (v : Verdict)
  | netErr (i : ℕ)
  | timeoutFire (j : ℕ)
  | resetClick

/-- One event of the page.  `submitClick` on an enabled button runs
`handleAudit(formData)`: `setLoading(true)` and a new `axios.post`
carrying the current draft.  `netOk` runs the success continuation,
which schedules `setTimeout(() => { setReport(response.data);
setLoading(false) }, 1500)`.  `netErr` runs the catch block:
`alert(...)` and `setLoading(false)`.  `timeoutFire` runs the scheduled
callback, storing the verdict; the form component unmounts when a
report is shown, so `resetClick` (which sets the report to `null`)
remounts it with its initial `useState` values. -/
def step (s : ClientState) (e : Event) : ClientState :=
  match e with
  | .form fe => if s.report = none then { s with form := formStep s.form fe } else s
  | .submitClick =>
      if submitEnabled s then
        { s with loading := true,
                 inflight := s.inflight ++ [s.form.formData],
                 lastSubmitted := some s.form.formData }
      else s
  | .netOk i v =>
      match s.inflight.get? i with
      | some req =>
          { s with inflight := s.inflight.eraseIdx i,
                   delayed := s.delayed ++ [(req, v)] }
      | none => s
  | .netErr i =>
      match s.inflight.get? i with
      | some _ =>
          { s with inflight := s.inflight.eraseIdx i,
                   loading := false,
                   alerts := s.alerts ++ [connectFailAlert] }
      | none => s
  | .timeoutFire j =>
      match s.delayed.get? j with
      | some p =>
          { s with delayed := s.delayed.eraseIdx j,
                   report := some p.2,
                   loading := false }
      | none => s
  | .resetClick =>
      if s.report = none then s
      else { s with report := none, form := initFormState }

/-- The page right after mounting: no report, not loading, nothing
outstanding. -/
def initState : ClientState :=
  { form := initFormState, report := none, loading := false,
    inflight := [], delayed := [], lastSubmitted := none, alerts := [] }

/-- States the client can actually be in. -/
inductive Reachable : ClientState → Prop
  | init : Reachable initState
  | step (s : ClientState) (e : Event) : Reachable s → Reachable (step s e)

/-- Run a list of events from the initial state. -/
def run (es : List Event) : ClientState := es.foldl step initState

/-- The `statusColors` object of `DecisionReport`, as the JS lookup
`statusColors[traffic_light.color]`: `none` models the `undefined` a
missing key yields. -/
def statusColors (c : String) : Option String :=
  if c = "GREEN" then some "bg-green-500/10 border-green-500 text-green-400"
  else if c = "YELLOW" then some "bg-yellow-500/10 border-yellow-500 text-yellow-400"
  else if c = "RED" then some "bg-red-500/10 border-red-500 text-red-400"
  else if c = "GREY" then some "bg-gray-500/10 border-gray-500 text-gray-400"
  else none

/-- The icon components `DecisionReport` can render in the status
badge. -/
inductive Icon where
  | CheckCircle
  | AlertTriangle
  | XCircle
  | Activity
deriving DecidableEq

/-- The `StatusIcon` lookup of `DecisionReport`: the icon object indexed
by the color, with `|| Activity` turning an `undefined` lookup into the
`Activity` icon. -/
def statusIcon (c : String) : Icon :=
  if c = "GREEN" then Icon.CheckCircle
  else if c = "YELLOW" then Icon.AlertTriangle
  else if c = "RED" then Icon.XCircle
  else if c = "GREY" then Icon.Activity
  else Icon.Activity

/-- `clsx(base, extra)` on a constant base and a possibly-`undefined`
second argument: `clsx` silently drops `undefined`. -/
def clsxMerge (base : String) (extra : Option String) : String :=
  match extra with
  | some s => base ++ " " ++ s
  | none => base

/-- The literal base class list of the status badge in
`DecisionReport`. -/
def badgeBase : String := "px-4 py-2 rounded-full border flex items-center gap-2"

/-- The class attribute of the status badge for a given classification
color. -/
def badgeClass (c : String) : String := clsxMerge badgeBase (statusColors c)

/-- The guard `ai_analysis.blockers && ai_analysis.blockers.length > 0`
that decides whether the blockers section renders. -/
def showBlockers (a : AiAnalysis) : Bool :=
  match a.blockers with
  | none => false
  | some l => decide (0 < l.length)

/-- The rendered blockers section: its heading and its list items. -/
structure BlockersSection where
  heading : String
  items : List String
deriving DecidableEq

/-- What `DecisionReport` renders for the blockers: when the guard
holds, a section with the `Alignment Blockers` heading and one `<li>`
per blocker, in list order (`ai_analysis.blockers.map`); otherwise
nothing at all. -/
def renderBlockers (a : AiAnalysis) : Option BlockersSection :=
  if showBlockers a then
    some { heading := "Alignment Blockers", items := a.blockers.getD [] }
  else
    none

/-- The lifecycle invariant of the page: either nothing is outstanding
and the loading flag is off, or exactly one `axios.post` is in flight,
or exactly one `setTimeout` is scheduled; in the latter two cases the
loading flag is on, no report is shown, and the outstanding work
belongs to the most recent submit. -/
def Inv (s : ClientState) : Prop :=
  (s.inflight = [] ∧ s.delayed = [] ∧ s.loading = false) ∨
  (∃ req, s.inflight = [req] ∧ s.delayed = [] ∧ s.loading = true ∧
      s.report = none ∧ s.lastSubmitted = some req) ∨
  (∃ req v, s.inflight = [] ∧ s.delayed = [(req, v)] ∧ s.loading = true ∧
      s.report = none ∧ s.lastSubmitted = some req)

lemma inv_init : Inv initState := by
  left
  simp [initState]

lemma inv_step (s : ClientState) (e : Event) (h : Inv s) : Inv (step s e) := by
  cases e with
  | form fe =>
      simp only [step]
      split
      · rcases h with h | ⟨req, h⟩ | ⟨req, v, h⟩
        · left; simp_all
        · right; left; exact ⟨req, by simp_all⟩
        · right; right; exact ⟨req, v, by simp_all⟩
      · exact h
  | submitClick =>
      simp only [step]
      split
      · rename_i hen
        rcases h with h | ⟨req, h⟩ | ⟨req, v, h⟩
        · right; left
          refine ⟨s.form.formData, ?_⟩
          simp_all [submitEnabled]
        · simp [submitEnabled, h.2.2.1] at hen
        · simp [submitEnabled, h.2.2.1] at hen
      · exact h
  | netOk i v =>
      simp only [step]
      rcases h with h | ⟨req, h⟩ | ⟨req, w, h⟩
      · simp [h.1]
        exact Or.inl h
      · rcases h with ⟨h1, h2, h3, h4, h5⟩
        rw [h1]
        cases i with
        | zero =>
            right; right
            exact ⟨req, v, by simp [h1, h2, h3, h4, h5]⟩
        | succ n =>
            simp
            right; left
            exact ⟨req, by simp [h1, h2, h3, h4, h5]⟩
      · rcases h with ⟨h1, h2, h3, h4, h5⟩
        rw [h1]
        simp
        right; right
        exact ⟨req, w, by simp [h1, h2, h3, h4, h5]⟩
  | netErr i =>
      simp only [step]
      rcases h with h | ⟨req, h⟩ | ⟨req, w, h⟩
      · simp [h.1]
        exact Or.inl h
      · rcases h with ⟨h1, h2, h3, h4, h5⟩
        rw [h1]
        cases i with
        | zero =>
            left
            simp [h1, h2]
        | succ n =>
            simp
            right; left
            exact ⟨req, by simp [h1, h2, h3, h4, h5]⟩
      · rcases h with ⟨h1, h2, h3, h4, h5⟩
        rw [h1]
        simp
        right; right
        exact ⟨req, w, by simp [h1, h2, h3, h4, h5]⟩
  | timeoutFire j =>
      simp only [step]
      rcases h with h | ⟨req, h⟩ | ⟨req, w, h⟩
      · simp [h.2.1]
        exact Or.inl h
      · rcases h with ⟨h1, h2, h3, h4, h5⟩
        rw [h2]
        simp
        right; left
        exact ⟨req, by simp [h1, h2, h3, h4, h5]⟩
      · rcases h with ⟨h1, h2, h3, h4, h5⟩
        rw [h2]
        cases j with
        | zero =>
            left
            simp [h1, h2]
        | succ n =>
            simp
            right; right
            exact ⟨req, w, by simp [h1, h2, h3, h4, h5]⟩
  | resetClick =>
      simp only [step]
      split
      · exact h
      · rename_i hrep
        rcases h with h | ⟨req, h⟩ | ⟨req, v, h⟩
        · left; simp_all
        · exact absurd h.2.2.2.1 hrep
        · exact absurd h.2.2.2.1 hrep

/-- Every reachable state satisfies the lifecycle invariant. -/
lemma reachable_inv (s : ClientState) (h : Reachable s) : Inv s := by
  induction h with
  | init => exact inv_init
  | step s e _ ih => exact inv_step s e ih

/-- Every run of the client ends in a reachable state. -/
lemma reachable_run (es : List Event) : Reachable (run es) := by
  suffices h : ∀ s : ClientState, Reachable s → Reachable (es.foldl step s) by
    exact h initState Reachable.init
  induction es with
  | nil => exact fun s hs => hs
  | cons e es ih => exact fun s hs => ih (step s e) (Reachable.step s e hs)

/-- A form interaction never raises the stored risk percentage above the
cap: if the draft's risk is not greater than 2.0, it still is not after
any form event. -/
lemma formStep_risk_ok (s : FormState) (e : FormEvent)
    (h : JSNum.gt s.formData.risk_percentage jsTwo = false) :
    JSNum.gt (formStep s e).formData.risk_percentage jsTwo = false := by
  cases e with
  | selectSymbol v => simp only [formStep]; split <;> simp [handleChange, h]
  | selectStrategy v => simp only [formStep]; split <;> simp [handleChange, h]
  | editBalance n => simp [formStep, handleChange, h]
  | editRisk n =>
      simp only [formStep, handleChange]
      rcases hg : JSNum.gt n jsTwo with hf | ht <;> simp [hg, h]

/-- In every reachable client state, the draft's risk percentage is not
greater than 2.0 under the JS comparison. -/
lemma reachable_risk_ok (s : ClientState) (h : Reachable s) :
    JSNum.gt s.form.formData.risk_percentage jsTwo = false := by
  induction h with
  | init => rfl
  | step s e _ ih =>
      cases e with
      | form fe =>
          simp only [step]
          split
          · exact formStep_risk_ok s.form fe ih
          · exact ih
      | submitClick => simp only [step]; split <;> simp [ih]
      | netOk i v =>
          simp only [step]
          rcases hg : s.inflight.get? i with _ | req <;> simp [ih]
      | netErr i =>
          simp only [step]
          rcases hg : s.inflight.get? i with _ | req <;> simp [ih]
      | timeoutFire j =>
          simp only [step]
          rcases hg : s.delayed.get? j with _ | p <;> simp [ih]
      | resetClick => simp only [step]; split
                      · exact ih
                      · rfl

/-- When a state has no call in flight, a network resolution event is a
no-op: there is nothing for it to resolve. -/
lemma netOk_noop (u : ClientState) (i : ℕ) (v : Verdict)
    (h : u.inflight = []) : step u (Event.netOk i v) = u := by
  have hg : u.inflight.get? i = none := by rw [h]; cases i <;> rfl
  simp only [step]
  rw [hg]

/-- When a state has no scheduled timeout, a timeout event is a
no-op. -/
lemma timeoutFire_noop (u : ClientState) (j : ℕ)
    (h : u.delayed = []) : step u (Event.timeoutFire j) = u := by
  have hg : u.delayed.get? j = none := by rw [h]; cases j <;> rfl
  simp only [step]
  rw [hg]

/-- A form event is an accepted risk edit when it targets the risk field
and passes the cap check of `handleChange`. -/
def acceptedRiskEdit : FormEvent → Bool
  | .editRisk n => !(JSNum.gt n jsTwo)
  | _ => false

/-- While the advisory is shown, a form event that is not an accepted
risk edit leaves it shown. -/
lemma formStep_advisory_persists (s : FormState) (e : FormEvent)
    (he : s.error = some riskAdvisory) (h : acceptedRiskEdit e = false) :
    (formStep s e).error = some riskAdvisory := by
  cases e with
  | selectSymbol v => simp only [formStep]; split <;> simp [handleChange, he]
  | selectStrategy v => simp only [formStep]; split <;> simp [handleChange, he]
  | editBalance n => simp [formStep, handleChange, he]
  | editRisk n =>
      simp only [acceptedRiskEdit, Bool.not_eq_false'] at h
      simp [formStep, handleChange, h]

/-- C1: editing `risk_percentage` to a numeric value `q` is accepted
exactly when `q ≤ 2.0` (0 and negative values included): on acceptance
the advisory is cleared and the draft's risk becomes `q`; on `q > 2.0`
the advisory is set and the whole draft, its risk in particular, keeps
its last accepted value. -/
theorem risk_guardrail_validate (s : FormState) (q : ℚ) :
    (q ≤ 2 →
      (handleChange s (FormEvent.editRisk (JSNum.num q))).error = none ∧
      (handleChange s (FormEvent.editRisk (JSNum.num q))).formData.risk_percentage
        = JSNum.num q) ∧
    (2 < q →
      (handleChange s (FormEvent.editRisk (JSNum.num q))).error = some riskAdvisory ∧
      (handleChange s (FormEvent.editRisk (JSNum.num q))).formData = s.formData) := by
  constructor
  · intro hq
    have hg : JSNum.gt (JSNum.num q) jsTwo = false := by
      simp [JSNum.gt, jsTwo, not_lt.mpr hq]
    simp [handleChange, hg]
  · intro hq
    have hg : JSNum.gt (JSNum.num q) jsTwo = true := by
      simp [JSNum.gt, jsTwo, hq]
    simp [handleChange, hg]

theorem risk_guardrail_validate_witness :
    ((handleChange initFormState (FormEvent.editRisk (JSNum.num 0))).error = none ∧
     (handleChange initFormState (FormEvent.editRisk (JSNum.num 0))).formData.risk_percentage
       = JSNum.num 0) ∧
    ((handleChange initFormState (FormEvent.editRisk (JSNum.num (5/2)))).error
       = some riskAdvisory ∧
     (handleChange initFormState (FormEvent.editRisk (JSNum.num (5/2)))).formData
       = initFormState.formData) := by
  exact ⟨(risk_guardrail_validate initFormState 0).1 (by norm_num),
         (risk_guardrail_validate initFormState (5/2)).2 (by norm_num)⟩

/-- C7: the reserved BREAKOUT strategy option is present in the
enumeration but carries the `disabled` attribute, so attempting to
select it fires no change event: the form state — the draft's
`strategy_type` and the advisory included — is exactly as before, and
no error is surfaced. -/
theorem reserved_strategy_noop (s : FormState) :
    ("BREAKOUT", true) ∈ strategyOptions ∧
    formStep s (FormEvent.selectStrategy "BREAKOUT") = s ∧
    (formStep s (FormEvent.selectStrategy "BREAKOUT")).formData.strategy_type
      = s.formData.strategy_type ∧
    (formStep s (FormEvent.selectStrategy "BREAKOUT")).error = s.error := by
  have hsel : selectable strategyOptions "BREAKOUT" = false := by rfl
  have hstep : formStep s (FormEvent.selectStrategy "BREAKOUT") = s := by
    simp [formStep, hsel]
  refine ⟨by simp [strategyOptions], hstep, by rw [hstep], by rw [hstep]⟩

/-- C8: a rejected risk edit activates the safety advisory (and leaves
the draft untouched); an accepted risk edit clears it; an event on any
other field leaves the advisory exactly as it was; and once active, the
advisory survives every sequence of form events that contains no
accepted risk edit. -/
theorem advisory_lifecycle (s : FormState) (n : JSNum) (e : FormEvent)
    (ops : List FormEvent) :
    (JSNum.gt n jsTwo = true →
       (formStep s (FormEvent.editRisk n)).error = some riskAdvisory ∧
       (formStep s (FormEvent.editRisk n)).formData = s.formData) ∧
    (JSNum.gt n jsTwo = false →
       (formStep s (FormEvent.editRisk n)).error = none) ∧
    ((∀ v : JSNum, e ≠ FormEvent.editRisk v) →
       (formStep s e).error = s.error) ∧
    (s.error = some riskAdvisory →
       (∀ x ∈ ops, acceptedRiskEdit x = false) →
       (ops.foldl formStep s).error = some riskAdvisory) := by
  refine ⟨fun hg => by simp [formStep, handleChange, hg],
          fun hg => by simp [formStep, handleChange, hg], ?_, ?_⟩
  · intro hne
    cases e with
    | selectSymbol v => simp only [formStep]; split <;> simp [handleChange]
    | selectStrategy v => simp only [formStep]; split <;> simp [handleChange]
    | editBalance n => simp [formStep, handleChange]
    | editRisk v => exact absurd rfl (hne v)
  · intro he hops
    induction ops generalizing s with
    | nil => exact he
    | cons x xs ih =>
        simp only [List.foldl_cons]
        exact ih (formStep s x)
          (formStep_advisory_persists s x he (hops x (by simp)))
          (fun y hy => hops y (by simp [hy]))

theorem advisory_lifecycle_witness :
    ((formStep { formData := initFormData, error := some riskAdvisory }
        (FormEvent.editRisk (JSNum.num 3))).error = some riskAdvisory ∧
     (formStep { formData := initFormData, error := some riskAdvisory }
        (FormEvent.editRisk (JSNum.num 3))).formData = initFormData) ∧
    (formStep { formData := initFormData, error := some riskAdvisory }
        (FormEvent.editRisk (JSNum.num 1))).error = none ∧
    (formStep { formData := initFormData, error := some riskAdvisory }
        (FormEvent.editBalance (JSNum.num 5))).error = some riskAdvisory ∧
    (([FormEvent.editBalance (JSNum.num 7), FormEvent.editRisk (JSNum.num 9),
        FormEvent.selectSymbol "ETH/USDT"].foldl formStep
        { formData := initFormData, error := some riskAdvisory }).error
      = some riskAdvisory) := by
  have h := advisory_lifecycle { formData := initFormData, error := some riskAdvisory }
    (JSNum.num 3) (FormEvent.editBalance (JSNum.num 5))
    [FormEvent.editBalance (JSNum.num 7), FormEvent.editRisk (JSNum.num 9),
     FormEvent.selectSymbol "ETH/USDT"]
  have h2 := advisory_lifecycle { formData := initFormData, error := some riskAdvisory }
    (JSNum.num 1) (FormEvent.editBalance (JSNum.num 5)) ([] : List FormEvent)
  exact ⟨h.1 (by decide), h2.2.1 (by decide),
         h.2.2.1 (fun v => by simp), h.2.2.2 rfl (by decide)⟩

/-- C3 counterexample: the unrecognized color `PURPLE` does not receive
the neutral fallback style: its `statusColors` lookup is `undefined`
(`none`), so the badge keeps only its base classes, which differ from
the badge the `GREY` fallback entry produces; only the icon falls back
to `Activity`. -/
theorem classifier_fallback_cex :
    statusColors "PURPLE" = none ∧
    statusColors "GREY" = some "bg-gray-500/10 border-gray-500 text-gray-400" ∧
    badgeClass "PURPLE" = badgeBase ∧
    badgeClass "PURPLE" ≠ badgeClass "GREY" ∧
    statusIcon "PURPLE" = Icon.Activity := by
  refine ⟨rfl, rfl, rfl, ?_, rfl⟩
  decide

/-- C3 amended: the classifier is total and deterministic — GREEN,
YELLOW and RED map to their positive, caution and blocking styles with
the matching icons, and every other color yields the fallback icon
`Activity` but an `undefined` style lookup, so its badge carries only
the base classes (clsx drops the `undefined`) rather than the GREY
fallback style; no input fails rendering. -/
theorem classify_total_amended (c : String)
    (h1 : c ≠ "GREEN") (h2 : c ≠ "YELLOW") (h3 : c ≠ "RED") (h4 : c ≠ "GREY") :
    statusColors "GREEN" = some "bg-green-500/10 border-green-500 text-green-400" ∧
    statusIcon "GREEN" = Icon.CheckCircle ∧
    statusColors "YELLOW" = some "bg-yellow-500/10 border-yellow-500 text-yellow-400" ∧
    statusIcon "YELLOW" = Icon.AlertTriangle ∧
    statusColors "RED" = some "bg-red-500/10 border-red-500 text-red-400" ∧
    statusIcon "RED" = Icon.XCircle ∧
    statusIcon c = Icon.Activity ∧
    statusColors c = none ∧
    badgeClass c = badgeBase := by
  refine ⟨rfl, rfl, rfl, rfl, rfl, rfl, ?_, ?_, ?_⟩
  · simp [statusIcon, h1, h2, h3, h4]
  · simp [statusColors, h1, h2, h3, h4]
  · simp [badgeClass, clsxMerge, statusColors, h1, h2, h3, h4]

theorem classify_total_amended_witness :
    statusIcon "PURPLE" = Icon.Activity ∧
    statusColors "PURPLE" = none ∧
    badgeClass "PURPLE" = badgeBase := by
  have h := classify_total_amended "PURPLE"
    (by decide) (by decide) (by decide) (by decide)
  exact ⟨h.2.2.2.2.2.2.1, h.2.2.2.2.2.2.2.1, h.2.2.2.2.2.2.2.2⟩

/-- C4: the blockers section renders exactly when the blockers list is
present and non-empty — an absent or empty list suppresses the section,
its heading included — and when it renders it carries exactly the
blocker strings, in order. -/
theorem blockers_section_iff (a : AiAnalysis) (l : List String) :
    (renderBlockers a = none ↔ (a.blockers = none ∨ a.blockers = some [])) ∧
    (a.blockers = some l → 0 < l.length →
      renderBlockers a = some { heading := "Alignment Blockers", items := l }) := by
  constructor
  · rcases hb : a.blockers with _ | l'
    · simp [renderBlockers, showBlockers, hb]
    · cases l' with
      | nil => simp [renderBlockers, showBlockers, hb]
      | cons x xs => simp [renderBlockers, showBlockers, hb]
  · intro hb hl
    simp [renderBlockers, showBlockers, hb, hl]

theorem blockers_section_iff_witness :
    renderBlockers { text := "Misaligned.", blockers := some ["Trend filter misaligned"] }
      = some { heading := "Alignment Blockers", items := ["Trend filter misaligned"] } ∧
    renderBlockers { text := "All clear.", blockers := some [] } = none := by
  refine ⟨(blockers_section_iff
      { text := "Misaligned.", blockers := some ["Trend filter misaligned"] }
      ["Trend filter misaligned"]).2 rfl (by decide), ?_⟩
  exact (blockers_section_iff { text := "All clear.", blockers := some [] } []).1.mpr
    (Or.inr rfl)

/-- C2 counterexample: after editing the risk field to NaN the submit
button is enabled, yet the draft's `risk_percentage` does not satisfy
`risk_percentage <= 2.0` — the comparison is false for NaN, in JS and
mathematically alike. -/
theorem submit_eligible_nan_cex :
    (run [Event.form (FormEvent.editRisk JSNum.nan)]).form.formData.risk_percentage
      = JSNum.nan ∧
    submitEnabled (run [Event.form (FormEvent.editRisk JSNum.nan)]) = true ∧
    JSNum.le (run [Event.form (FormEvent.editRisk JSNum.nan)]).form.formData.risk_percentage
      jsTwo = false := by
  exact ⟨rfl, rfl, rfl⟩

/-- C2 amended: at every moment the draft is eligible for submission its
`risk_percentage` is not greater than 2.0 under the JS comparison — so
it is ≤ 2.0 whenever it is an actual number, while a NaN value also
passes the guard — and the invariant is maintained at the moment of
every edit: an edit with a numeric value above the cap is rejected and
the whole draft keeps its prior value. -/
theorem submit_eligible_risk_capped (s : ClientState) (q : ℚ)
    (hr : Reachable s) (_he : submitEnabled s = true) (hq : 2 < q) :
    JSNum.gt s.form.formData.risk_percentage jsTwo = false ∧
    (step s (Event.form (FormEvent.editRisk (JSNum.num q)))).form.formData
      = s.form.formData := by
  refine ⟨reachable_risk_ok s hr, ?_⟩
  have hg : JSNum.gt (JSNum.num q) jsTwo = true := by
    simp [JSNum.gt, jsTwo, hq]
  simp only [step]
  split
  · simp [formStep, handleChange, hg]
  · rfl

theorem submit_eligible_risk_capped_witness :
    JSNum.gt initState.form.formData.risk_percentage jsTwo = false ∧
    (step initState (Event.form (FormEvent.editRisk (JSNum.num 3)))).form.formData
      = initState.form.formData := by
  exact submit_eligible_risk_capped initState 3 Reachable.init rfl (by norm_num)

/-- C5: while a call is outstanding (`loading` is set) the submit button
is disabled, so a further submit action changes nothing — neither the
session state nor the in-flight work — and consequently every reachable
state has at most one outstanding call or scheduled callback. -/
theorem submit_while_submitting_noop (s t : ClientState)
    (h : s.loading = true) (ht : Reachable t) :
    step s Event.submitClick = s ∧
    t.inflight.length + t.delayed.length ≤ 1 := by
  constructor
  · simp [step, submitEnabled, h]
  · rcases reachable_inv t ht with hi | ⟨req, hi⟩ | ⟨req, v, hi⟩ <;>
      simp [hi.1, hi.2.1]

theorem submit_while_submitting_noop_witness :
    step (run [Event.submitClick]) Event.submitClick = run [Event.submitClick] ∧
    initState.inflight.length + initState.delayed.length ≤ 1 := by
  exact submit_while_submitting_noop (run [Event.submitClick]) initState rfl
    Reachable.init

/-- C6: whenever a report is shown — the only situation in which the
reset button exists — nothing is in flight and no callback is
scheduled, so after a reset every network-resolution or timeout event
is a no-op on the fresh state: no stale verdict can overwrite it.
Moreover every outstanding call and every scheduled callback in any
reachable state carries exactly the request of the most recent submit,
so the verdict that settles a `Submitting` state is the answer to the
request that initiated it. -/
theorem stale_response_discarded (s : ClientState) (hr : Reachable s) :
    (s.report ≠ none →
       s.inflight = [] ∧ s.delayed = [] ∧
       (∀ i v, step (step s Event.resetClick) (Event.netOk i v)
          = step s Event.resetClick) ∧
       (∀ j, step (step s Event.resetClick) (Event.timeoutFire j)
          = step s Event.resetClick)) ∧
    (∀ req, req ∈ s.inflight → s.lastSubmitted = some req) ∧
    (∀ p, p ∈ s.delayed → s.lastSubmitted = some p.1) := by
  rcases reachable_inv s hr with hi | ⟨req, hi⟩ | ⟨req, v, hi⟩
  · obtain ⟨h1, h2, h3⟩ := hi
    refine ⟨fun hrep => ⟨h1, h2, ?_, ?_⟩, by simp [h1], by simp [h2]⟩
    · intro i v
      apply netOk_noop
      simp only [step]
      split
      · exact h1
      · exact h1
    · intro j
      apply timeoutFire_noop
      simp only [step]
      split
      · exact h2
      · exact h2
  · obtain ⟨h1, h2, h3, h4, h5⟩ := hi
    exact ⟨fun hrep => absurd h4 hrep,
           fun r hr' => by rw [h1] at hr'; simp at hr'; rw [hr', h5],
           by simp [h2]⟩
  · obtain ⟨h1, h2, h3, h4, h5⟩ := hi
    exact ⟨fun hrep => absurd h4 hrep,
           by simp [h1],
           fun p hp => by rw [h2] at hp; simp at hp; rw [hp, h5]⟩

/-- A concrete verdict used for witness runs. -/
def sampleVerdict : Verdict :=
  { asset := "BTC/USDT", timestamp := "2024-01-01T00:00:00Z",
    ui_components :=
      { traffic_light := { color := "RED", label := "NO GO" },
        regime_card := { title := "Market Regime", value := "Ranging",
                         subtext := "Choppy structure." },
        risk_card := { title := "Risk Guardrails", metric_1 := "1.2%",
                       metric_2 := "0.4 BTC" },
        ai_analysis := { text := "Misaligned.",
                         blockers := some ["Trend filter misaligned"] } } }

theorem stale_response_discarded_witness :
    (run [Event.submitClick, Event.netOk 0 sampleVerdict, Event.timeoutFire 0]).inflight
      = [] ∧
    (run [Event.submitClick, Event.netOk 0 sampleVerdict, Event.timeoutFire 0]).delayed
      = [] ∧
    (∀ i v,
      step (step (run [Event.submitClick, Event.netOk 0 sampleVerdict,
          Event.timeoutFire 0]) Event.resetClick) (Event.netOk i v)
        = step (run [Event.submitClick, Event.netOk 0 sampleVerdict,
            Event.timeoutFire 0]) Event.resetClick) := by
  have h := (stale_response_discarded
    (run [Event.submitClick, Event.netOk 0 sampleVerdict, Event.timeoutFire 0])
    (reachable_run _)).1 (by decide)
  exact ⟨h.1, h.2.1, h.2.2.1⟩

/-- C9: when the outstanding call fails, the catch block leaves the
session with the loading flag off, nothing outstanding (no automatic
retry), no verdict stored, and the blocking `alert` that the risk
engine could not be reached appended to the alert log; from there the
submit button is enabled exactly when no advisory is active, and a
human-initiated resubmission starts a fresh call with the current
draft. -/
theorem remote_failure_path (s : ClientState) (i : ℕ) (req : AuditRequest)
    (hr : Reachable s) (hp : s.inflight.get? i = some req) :
    (step s (Event.netErr i)).loading = false ∧
    (step s (Event.netErr i)).report = none ∧
    (step s (Event.netErr i)).inflight = [] ∧
    (step s (Event.netErr i)).delayed = [] ∧
    (step s (Event.netErr i)).alerts = s.alerts ++ [connectFailAlert] ∧
    submitEnabled (step s (Event.netErr i)) = (step s (Event.netErr i)).form.error.isNone ∧
    ((step s (Event.netErr i)).form.error = none →
       step (step s (Event.netErr i)) Event.submitClick =
         { (step s (Event.netErr i)) with
             loading := true,
             inflight := [(step s (Event.netErr i)).form.formData],
             lastSubmitted := some (step s (Event.netErr i)).form.formData }) := by
  rcases reachable_inv s hr with hi | ⟨req', hi⟩ | ⟨req', v, hi⟩
  · rw [hi.1] at hp
    exact absurd hp (by cases i <;> simp)
  · obtain ⟨h1, h2, h3, h4, h5⟩ := hi
    rw [h1] at hp
    cases i with
    | succ n => exact absurd hp (by simp)
    | zero =>
        have hstep : step s (Event.netErr 0) =
            { s with inflight := [], loading := false,
                     alerts := s.alerts ++ [connectFailAlert] } := by
          simp [step, h1]
        rw [hstep]
        refine ⟨rfl, h4, rfl, h2, rfl, ?_, ?_⟩
        · simp [submitEnabled, h4]
        · intro he
          have he' : s.form.error = none := he
          have hen : submitEnabled
              { s with inflight := [], loading := false,
                       alerts := s.alerts ++ [connectFailAlert] } = true := by
            simp [submitEnabled, h4, he']
          simp [step, hen]
  · obtain ⟨h1, h2, h3, h4, h5⟩ := hi
    rw [h1] at hp
    exact absurd hp (by cases i <;> simp)

theorem remote_failure_path_witness :
    (step (run [Event.submitClick]) (Event.netErr 0)).loading = false ∧
    (step (run [Event.submitClick]) (Event.netErr 0)).report = none ∧
    (step (run [Event.submitClick]) (Event.netErr 0)).inflight = [] ∧
    (step (run [Event.submitClick]) (Event.netErr 0)).alerts
      = (run [Event.submitClick]).alerts ++ [connectFailAlert] := by
  have h := remote_failure_path (run [Event.submitClick]) 0 initFormData
    (reachable_run _) (by decide)
  exact ⟨h.1, h.2.1, h.2.2.1, h.2.2.2.2.1⟩

/-- C10: an edit that sets the risk field to NaN passes the guardrail —
`NaN > 2.0` is false — so the draft's risk becomes NaN, any active
advisory is cleared, the submit button is enabled, and a click submits
the NaN-carrying draft to the risk engine. -/
theorem nan_risk_accepted (s : ClientState)
    (h1 : s.report = none) (h2 : s.loading = false) :
    JSNum.gt JSNum.nan jsTwo = false ∧
    (step s (Event.form (FormEvent.editRisk JSNum.nan))).form.formData.risk_percentage
      = JSNum.nan ∧
    (step s (Event.form (FormEvent.editRisk JSNum.nan))).form.error = none ∧
    submitEnabled (step s (Event.form (FormEvent.editRisk JSNum.nan))) = true ∧
    step (step s (Event.form (FormEvent.editRisk JSNum.nan))) Event.submitClick =
      { (step s (Event.form (FormEvent.editRisk JSNum.nan))) with
          loading := true,
          inflight := s.inflight ++ [{ s.form.formData with risk_percentage := JSNum.nan }],
          lastSubmitted := some { s.form.formData with risk_percentage := JSNum.nan } } := by
  have hstep : step s (Event.form (FormEvent.editRisk JSNum.nan)) =
      { s with form := { formData := { s.form.formData with risk_percentage := JSNum.nan },
                         error := none } } := by
    simp [step, h1, formStep, handleChange, JSNum.gt]
  rw [hstep]
  have hen : submitEnabled
      { s with form := { formData := { s.form.formData with risk_percentage := JSNum.nan },
                         error := none } } = true := by
    simp [submitEnabled, h1, h2]
  refine ⟨rfl, rfl, rfl, hen, ?_⟩
  simp [step, hen]

theorem nan_risk_accepted_witness :
    (step initState (Event.form (FormEvent.editRisk JSNum.nan))).form.formData.risk_percentage
      = JSNum.nan ∧
    (step initState (Event.form (FormEvent.editRisk JSNum.nan))).form.error = none ∧
    submitEnabled (step initState (Event.form (FormEvent.editRisk JSNum.nan))) = true := by
  have h := nan_risk_accepted initState rfl rfl
  exact ⟨h.2.1, h.2.2.1, h.2.2.2.1⟩

end RiskGuard
